import Mathlib

/-!
Shallow embedding of `src/io_linux.c` (tinyio): a minimal io_uring-based
asynchronous I/O engine.  Machine `unsigned` values are modelled as `Nat`
with explicit `% 2^32` where the C code's arithmetic wraps.  Pointers that
serve as correlation tags (`sqe.user_data = (uint64_t) op`) are modelled as
indices into the operation table.  Kernel calls (`io_uring_setup`,
`io_uring_enter`, `mmap`) are modelled as oracle parameters: their return
values are inputs to the embedded functions.
-/

/-- 2^32, the modulus of the C `unsigned int` ring indices. -/
def U32 : Nat := 4294967296

/-- Operation kinds, from `io.h` usage in `io_linux.c`
(`IO_VOID`, `IO_RECV`, `IO_SEND`, `IO_ACCEPT`). -/
inductive OpType where
  | IO_VOID
  | IO_RECV
  | IO_SEND
  | IO_ACCEPT
deriving DecidableEq

/-- A slot of the operation table (`struct io_operation`): semantic kind
and opaque caller context (`op->type`, `op->user`). -/
structure IoOperation where
  type : OpType
  user : Nat
deriving DecidableEq

/-- The idle slot value; `alloc_op` searches for `type == IO_VOID`. -/
def opVoid : IoOperation := { type := OpType.IO_VOID, user := 0 }

/-- Submission queue entry (`struct io_uring_sqe`), the fields
`io_linux.c` writes; `memset` zeroes the rest, so unset fields are 0.
`user_data` is the correlation tag (a slot pointer in C, a slot index
here). -/
structure IoUringSqe where
  opcode : Nat
  fd : Int
  addr : Nat
  len : Nat
  user_data : Nat
deriving DecidableEq

/-- The all-zero sqe produced by `memset(&sqe, 0, sizeof(sqe))`. -/
def sqeZero : IoUringSqe :=
  { opcode := 0, fd := 0, addr := 0, len := 0, user_data := 0 }

/-- Completion queue entry (`struct io_uring_cqe`): correlation tag and
signed kernel result. -/
structure IoUringCqe where
  user_data : Nat
  res : Int
deriving DecidableEq

/-- Default cqe used for out-of-range reads of the completion array. -/
def cqeZero : IoUringCqe := { user_data := 0, res := 0 }

/-- Linux opcodes used by the engine. -/
def IORING_OP_READ : Nat := 22

def IORING_OP_WRITE : Nat := 23

def IORING_OP_ACCEPT : Nat := 13

/-- The submission ring view saved in `ioc->submissions`: free-running
32-bit `head` (kernel-advanced) and `tail` (engine-advanced), `mask`,
the index array, the sqe array and the kernel-granted capacity
(`limit = p.sq_entries`). -/
structure SubmissionRing where
  head : Nat
  tail : Nat
  mask : Nat
  array : List Nat
  entries : List IoUringSqe
  limit : Nat
deriving DecidableEq

/-- The completion ring view saved in `ioc->completions`. -/
structure CompletionRing where
  head : Nat
  tail : Nat
  mask : Nat
  entries : List IoUringCqe
  limit : Nat
deriving DecidableEq

/-- The engine context (`struct io_context`): operation table, its
capacity, the ring fd and the two ring views. -/
structure IoContext where
  ops : List IoOperation
  max_ops : Nat
  handle : Int
  submissions : SubmissionRing
  completions : CompletionRing
deriving DecidableEq

/-- The event reported by `io_wait` (`struct io_event`).  `ev` is an out
parameter in C; a field is `none` when the code path never writes it. -/
structure IoEvent where
  user : Option Nat
  type : Option OpType
  error : Bool
  num : Option Int
  handle : Option Int
deriving DecidableEq

/-- The event produced on the wait-call failure path: only `ev->error`
is written. -/
def errorEvent : IoEvent :=
  { user := none, type := none, error := true, num := none, handle := none }

/-- The storage index `tail & mask` used by `start_oper`. -/
def subIndex (s : SubmissionRing) : Nat := s.tail &&& s.mask

/-- The submission-ring state after `start_oper`'s three stores: the sqe
at `tail & mask`, that index in the index array at the same position,
and the release-stored advanced tail. -/
def subAdvanced (s : SubmissionRing) (sqe : IoUringSqe) : SubmissionRing :=
  { s with
      entries := s.entries.set (subIndex s) sqe,
      array := s.array.set (subIndex s) (subIndex s),
      tail := (s.tail + 1) % U32 }

/-- `start_oper` (io_linux.c:116).  Loads `mask`, `tail`, `head`; refuses
when `tail >= head + limit` (unsigned 32-bit addition, hence the
`% U32`); otherwise performs the three ring stores of `subAdvanced` and
then issues one `io_uring_enter` notify whose return value is the oracle
`enterRet`; a negative notify result yields `false` with the ring already
mutated. -/
def start_oper (enterRet : Int) (ioc : IoContext) (sqe : IoUringSqe) :
    Bool × IoContext :=
  if ioc.submissions.tail ≥
      (ioc.submissions.head + ioc.submissions.limit) % U32 then
    (false, ioc)
  else
    let ioc2 := { ioc with submissions := subAdvanced ioc.submissions sqe }
    if enterRet < 0 then (false, ioc2) else (true, ioc2)

/-- `alloc_op` (io_linux.c:139): first-fit linear scan over
`ops[0 .. max_ops)` for a slot whose type is `IO_VOID`; returns the slot
(here: its index), or `NULL` (here: `none`).  It does not mutate the
slot. -/
def alloc_op (ioc : IoContext) : Option Nat :=
  (List.range ioc.max_ops).find?
    (fun i => (ioc.ops.getD i opVoid).type == OpType.IO_VOID)

/-- The READ sqe built by `io_start_recv` after the `memset`: opcode,
target fd, buffer address, length, and the slot identity as
`user_data`. -/
def recvSqe (handle : Int) (dst mx i : Nat) : IoUringSqe :=
  { opcode := IORING_OP_READ, fd := handle, addr := dst, len := mx,
    user_data := i }

/-- The WRITE sqe built by `io_start_send`. -/
def sendSqe (handle : Int) (src num i : Nat) : IoUringSqe :=
  { opcode := IORING_OP_WRITE, fd := handle, addr := src, len := num,
    user_data := i }

/-- The ACCEPT sqe built by `io_start_accept` (addr/len stay zero from
the memset). -/
def acceptSqe (handle : Int) (i : Nat) : IoUringSqe :=
  { opcode := IORING_OP_ACCEPT, fd := handle, addr := 0, len := 0,
    user_data := i }

/-- `io_start_recv` (io_linux.c:147): allocates a slot, builds a READ sqe
carrying the slot identity as correlation tag, submits it through
`start_oper`, and only on success commits the slot's context and kind. -/
def io_start_recv (enterRet : Int) (ioc : IoContext) (handle : Int)
    (dst : Nat) (max : Nat) (user : Nat) : Bool × IoContext :=
  match alloc_op ioc with
  | none => (false, ioc)
  | some i =>
    let r := start_oper enterRet ioc (recvSqe handle dst max i)
    if r.1 = false then (false, r.2)
    else
      let op := r.2.ops.getD i opVoid
      (true, { r.2 with
                ops := r.2.ops.set i
                  { op with user := user, type := OpType.IO_RECV } })

/-- `io_start_send` (io_linux.c:172): as `io_start_recv` with a WRITE
sqe and kind `IO_SEND`. -/
def io_start_send (enterRet : Int) (ioc : IoContext) (handle : Int)
    (src : Nat) (num : Nat) (user : Nat) : Bool × IoContext :=
  match alloc_op ioc with
  | none => (false, ioc)
  | some i =>
    let r := start_oper enterRet ioc (sendSqe handle src num i)
    if r.1 = false then (false, r.2)
    else
      let op := r.2.ops.getD i opVoid
      (true, { r.2 with
                ops := r.2.ops.set i
                  { op with user := user, type := OpType.IO_SEND } })

/-- `io_start_accept` (io_linux.c:197): as above with an ACCEPT sqe and
kind `IO_ACCEPT`. -/
def io_start_accept (enterRet : Int) (ioc : IoContext) (handle : Int)
    (user : Nat) : Bool × IoContext :=
  match alloc_op ioc with
  | none => (false, ioc)
  | some i =>
    let r := start_oper enterRet ioc (acceptSqe handle i)
    if r.1 = false then (false, r.2)
    else
      let op := r.2.ops.getD i opVoid
      (true, { r.2 with
                ops := r.2.ops.set i
                  { op with user := user, type := OpType.IO_ACCEPT } })

/-- The cqe `io_wait` reads: `&ioc->completions.entries[head & mask]`. -/
def waitCqe (ioc : IoContext) : IoUringCqe :=
  ioc.completions.entries.getD
    (ioc.completions.head &&& ioc.completions.mask) cqeZero

/-- The table slot `io_wait` resolves the correlation tag to:
`op = (void *) cqe->user_data`. -/
def waitOp (ioc : IoContext) : IoOperation :=
  ioc.ops.getD (waitCqe ioc).user_data opVoid

/-- `io_wait` (io_linux.c:219).  Acquire-loads completion `head`/`tail`;
when equal it issues the blocking `io_uring_enter(.., 1, GETEVENTS)`
whose return value is the oracle `enterRet`, and a negative result
returns an error event with nothing consumed.  Otherwise it reads the
cqe at `head & mask`, resolves its correlation tag to a table slot,
copies the slot's context/kind and the result sign into the event, fills
the kind-specific field on success, resets the slot to `IO_VOID`, and
release-stores `head+1` last. -/
def io_wait (enterRet : Int) (ioc : IoContext) : IoEvent × IoContext :=
  if ioc.completions.head = ioc.completions.tail ∧ enterRet < 0 then
    (errorEvent, ioc)
  else
    let cqe := waitCqe ioc
    let op := waitOp ioc
    let ev0 : IoEvent :=
      { user := some op.user, type := some op.type,
        error := decide (cqe.res < 0), num := none, handle := none }
    let ev :=
      if cqe.res < 0 then ev0
      else
        match op.type with
        | OpType.IO_VOID => ev0
        | OpType.IO_RECV => { ev0 with num := some cqe.res }
        | OpType.IO_SEND => { ev0 with num := some cqe.res }
        | OpType.IO_ACCEPT => { ev0 with handle := some cqe.res }
    (ev,
      { ioc with
          ops := ioc.ops.set cqe.user_data { op with type := OpType.IO_VOID },
          completions :=
            { ioc.completions with
                head := (ioc.completions.head + 1) % U32 } })

/-- Number of unconsumed submission-ring entries for free-running 32-bit
indices: `(tail - head) mod 2^32` computed in `Nat`. -/
def subCount (s : SubmissionRing) : Nat := (s.tail + U32 - s.head) % U32

/-- The fields of `struct io_uring_params` the setup logic reads after
the kernel fills them: granted entry counts, feature bitmask, and the
two offsets entering the region-size formulas (`sq_off.array`,
`cq_off.cqes`).  The remaining offsets only position saved pointers and
play no part in the claims. -/
structure IoUringParams where
  sq_entries : Nat
  cq_entries : Nat
  features : Nat
  sq_off_array : Nat
  cq_off_cqes : Nat
deriving DecidableEq

/-- `IORING_FEAT_SINGLE_MMAP` feature bit. -/
def IORING_FEAT_SINGLE_MMAP : Nat := 1

/-- mmap offset selecting the SQ ring region. -/
def IORING_OFF_SQ_RING : Nat := 0

/-- mmap offset selecting the CQ ring region. -/
def IORING_OFF_CQ_RING : Nat := 0x8000000

/-- mmap offset selecting the sqe array region. -/
def IORING_OFF_SQES : Nat := 0x10000000

/-- Oracle for the kernel calls made by `io_context_init`: the fd
returned by `io_uring_setup(32, &p)`, the params the kernel filled on
success, and whether each of the three possible `mmap` calls succeeds. -/
structure InitOracle where
  setup_fd : Int
  p : IoUringParams
  sq_mmap_ok : Bool
  cq_mmap_ok : Bool
  sqes_mmap_ok : Bool
deriving DecidableEq

/-- Kernel-side resources `io_context_init` can acquire: the ring fd and
memory mappings, identified by their mmap offset and byte size. -/
inductive Resource where
  | ringFd
  | mapping (off : Nat) (sz : Nat)
deriving DecidableEq

/-- Outcome of the modelled `io_context_init`: the C return value, the
resources acquired and released along the executed path, and whether the
CQ ring view aliases the SQ mapping (`cq_ptr = sq_ptr`). -/
structure InitResult where
  success : Bool
  acquired : List Resource
  released : List Resource
  cqSharesSq : Bool
deriving DecidableEq

/-- `io_context_init` (io_linux.c:28), projected onto resource
acquisition and the mapping geometry.  `sizeof(unsigned) = 4`,
`sizeof(struct io_uring_cqe) = 16`, `sizeof(struct io_uring_sqe) = 64`
on the target ABI.  Sizes use the kernel-granted `p.sq_entries` /
`p.cq_entries`, not the hint 32 passed to setup.  When
`IORING_FEAT_SINGLE_MMAP` is reported, both region sizes become the
larger of the two and the CQ view aliases the single SQ mapping; the
failure returns release nothing (the `// TODO: Cleanup` paths). -/
def io_context_init (o : InitOracle) : InitResult :=
  if o.setup_fd < 0 then
    { success := false, acquired := [], released := [], cqSharesSq := false }
  else
    let p := o.p
    let sring_sz0 := p.sq_off_array + p.sq_entries * 4
    let cring_sz0 := p.cq_off_cqes + p.cq_entries * 16
    let single := p.features &&& IORING_FEAT_SINGLE_MMAP ≠ 0
    let sring_sz := if single then Nat.max sring_sz0 cring_sz0 else sring_sz0
    let cring_sz := if single then Nat.max sring_sz0 cring_sz0 else cring_sz0
    if o.sq_mmap_ok = false then
      { success := false, acquired := [Resource.ringFd], released := [],
        cqSharesSq := false }
    else
      let acq1 := [Resource.ringFd,
                   Resource.mapping IORING_OFF_SQ_RING sring_sz]
      if single then
        if o.sqes_mmap_ok = false then
          { success := false, acquired := acq1, released := [],
            cqSharesSq := true }
        else
          { success := true,
            acquired := acq1 ++
              [Resource.mapping IORING_OFF_SQES (p.sq_entries * 64)],
            released := [], cqSharesSq := true }
      else
        if o.cq_mmap_ok = false then
          { success := false, acquired := acq1, released := [],
            cqSharesSq := false }
        else
          let acq2 := acq1 ++ [Resource.mapping IORING_OFF_CQ_RING cring_sz]
          if o.sqes_mmap_ok = false then
            { success := false, acquired := acq2, released := [],
              cqSharesSq := false }
          else
            { success := true,
              acquired := acq2 ++
                [Resource.mapping IORING_OFF_SQES (p.sq_entries * 64)],
              released := [], cqSharesSq := false }

/-- A small concrete context used by the closed instance theorems:
4 idle table slots, ring capacity 4 (mask 3), all indices at 0. -/
def iocBase : IoContext :=
  { ops := List.replicate 4 opVoid,
    max_ops := 4,
    handle := 3,
    submissions :=
      { head := 0, tail := 0, mask := 3,
        array := List.replicate 4 0,
        entries := List.replicate 4 sqeZero,
        limit := 4 },
    completions :=
      { head := 0, tail := 0, mask := 3,
        entries := List.replicate 4 cqeZero,
        limit := 4 } }

/-- A context whose completion ring holds one pending completion for
slot 1 (an outstanding accept with context 7) with kernel result -13. -/
def iocPend : IoContext :=
  { iocBase with
      ops := [opVoid, { type := OpType.IO_ACCEPT, user := 7 }, opVoid,
              opVoid],
      completions :=
        { head := 5, tail := 6, mask := 3,
          entries := [cqeZero, { user_data := 1, res := -13 },
                      cqeZero, cqeZero],
          limit := 4 } }

/-- A context at the 32-bit wrap point: submission `head = tail =
2^32 - 1`, so the ring is empty, yet `head + limit` wraps to 3. -/
def iocWrap : IoContext :=
  { iocBase with
      submissions :=
        { head := 4294967295, tail := 4294967295, mask := 3,
          array := List.replicate 4 0,
          entries := List.replicate 4 sqeZero,
          limit := 4 } }

/-- A context whose submission ring is full: `head = 0`, `tail = 4`,
capacity 4. -/
def iocFull : IoContext :=
  { iocBase with
      submissions := { iocBase.submissions with tail := 4 } }

/-- A context holding an outstanding receive in slot 0 (context 42)
whose completion, echoing correlation tag 0 with result 5, is pending at
completion head 0. -/
def iocEcho : IoContext :=
  { iocBase with
      ops := [{ type := OpType.IO_RECV, user := 42 }, opVoid, opVoid,
              opVoid],
      completions :=
        { head := 0, tail := 1, mask := 3,
          entries := [{ user_data := 0, res := 5 }, cqeZero, cqeZero,
                      cqeZero],
          limit := 4 } }

/-- Kernel-granted params used by the setup instances: entry counts
differ from the hint 32, so the size formulas visibly use the granted
values. -/
def pSample : IoUringParams :=
  { sq_entries := 64, cq_entries := 128, features := 1,
    sq_off_array := 136, cq_off_cqes := 320 }

/-- Setup oracle for the leak scenario: the setup call grants fd 3, the
first `mmap` (SQ ring region) fails. -/
def oracleLeak : InitOracle :=
  { setup_fd := 3, p := pSample, sq_mmap_ok := false, cq_mmap_ok := true,
    sqes_mmap_ok := true }

/-- Setup oracle where every kernel call succeeds and the kernel reports
`IORING_FEAT_SINGLE_MMAP`. -/
def oracleOk : InitOracle :=
  { setup_fd := 3, p := pSample, sq_mmap_ok := true, cq_mmap_ok := true,
    sqes_mmap_ok := true }

/-! ## Helper lemmas -/

/-- On a full ring, `start_oper` returns `false` with the context
untouched. -/
theorem start_oper_full (e : Int) (ioc : IoContext) (sqe : IoUringSqe)
    (hfull : ioc.submissions.tail ≥
      (ioc.submissions.head + ioc.submissions.limit) % U32) :
    start_oper e ioc sqe = (false, ioc) := by
  simp [start_oper, hfull]

/-- `start_oper` never touches the operation table. -/
theorem start_oper_ops (e : Int) (ioc : IoContext) (sqe : IoUringSqe) :
    (start_oper e ioc sqe).2.ops = ioc.ops := by
  unfold start_oper
  split
  · rfl
  · split <;> rfl

/-- When the full check passes, the post-state submission ring is
`subAdvanced`, whatever the notify call returns. -/
theorem start_oper_state (e : Int) (ioc : IoContext) (sqe : IoUringSqe)
    (hnf : ¬ ioc.submissions.tail ≥
      (ioc.submissions.head + ioc.submissions.limit) % U32) :
    (start_oper e ioc sqe).2 =
      { ioc with submissions := subAdvanced ioc.submissions sqe } := by
  unfold start_oper
  rw [if_neg hnf]
  split <;> rfl

/-- A `true` return from `start_oper` forces the full check to have
passed and the notify to have succeeded, so the post state is exactly
the advanced ring. -/
theorem start_oper_true (e : Int) (ioc ioc2 : IoContext) (sqe : IoUringSqe)
    (h : start_oper e ioc sqe = (true, ioc2)) :
    ioc2 = { ioc with submissions := subAdvanced ioc.submissions sqe } := by
  unfold start_oper at h
  split at h
  · exact absurd (congrArg Prod.fst h) (by simp)
  · split at h
    · exact absurd (congrArg Prod.fst h) (by simp)
    · exact (congrArg Prod.snd h).symm

/-- When the full check passes but the notify call fails, `start_oper`
returns `false` with the ring already advanced. -/
theorem start_oper_enter_fail (e : Int) (ioc : IoContext) (sqe : IoUringSqe)
    (hnf : ¬ ioc.submissions.tail ≥
      (ioc.submissions.head + ioc.submissions.limit) % U32)
    (he : e < 0) :
    start_oper e ioc sqe =
      (false, { ioc with submissions := subAdvanced ioc.submissions sqe }) := by
  unfold start_oper
  rw [if_neg hnf, if_pos he]

/-- The slot `alloc_op` returns is idle: that is the predicate of the
first-fit scan. -/
theorem alloc_op_idle (ioc : IoContext) (i : Nat)
    (h : alloc_op ioc = some i) :
    (ioc.ops.getD i opVoid).type = OpType.IO_VOID := by
  have := List.find?_some h
  simpa using this

/-- The slot `alloc_op` returns lies below `max_ops`. -/
theorem alloc_op_lt (ioc : IoContext) (i : Nat)
    (h : alloc_op ioc = some i) : i < ioc.max_ops := by
  have := List.mem_of_find?_eq_some h
  simpa [List.mem_range] using this

/-- `io_wait` never touches the submission ring. -/
theorem io_wait_submissions (e : Int) (ioc : IoContext) :
    (io_wait e ioc).2.submissions = ioc.submissions := by
  unfold io_wait
  split <;> rfl

/-! ## Claim theorems -/

/-- C4: when the completion ring is empty and the blocking
`io_uring_enter` fails, `io_wait` returns the event whose only written
field is `error = true` (kind and context stay unset) and leaves the
context — completion head included — untouched, so no slot is freed and
a retry is safe. -/
theorem io_wait_enter_failure_safe (e : Int) (ioc : IoContext)
    (h1 : ioc.completions.head = ioc.completions.tail) (h2 : e < 0) :
    io_wait e ioc = (errorEvent, ioc) := by
  simp [io_wait, h1, h2]

/-- Witness for C4 at a concrete empty completion ring. -/
theorem io_wait_enter_failure_safe_witness :
    io_wait (-1) iocBase = (errorEvent, iocBase) :=
  io_wait_enter_failure_safe (-1) iocBase rfl (by decide)

/-- C2: a submit refused by admission control — no idle table slot, or
ring full (`tail ≥ head + capacity` in wrapping 32-bit arithmetic) —
returns `false` and leaves the whole context unchanged: submission ring
(tail, index array, sqe array) and operation table included, for all
three typed submits. -/
theorem submit_refusal_no_mutation (e : Int) (ioc : IoContext)
    (handle : Int) (dst mx src num user : Nat)
    (href : alloc_op ioc = none ∨
      ioc.submissions.tail ≥
        (ioc.submissions.head + ioc.submissions.limit) % U32) :
    io_start_recv e ioc handle dst mx user = (false, ioc) ∧
    io_start_send e ioc handle src num user = (false, ioc) ∧
    io_start_accept e ioc handle user = (false, ioc) := by
  rcases href with hnone | hfull
  · refine ⟨?_, ?_, ?_⟩ <;>
      simp [io_start_recv, io_start_send, io_start_accept, hnone]
  · refine ⟨?_, ?_, ?_⟩ <;>
    · cases halloc : alloc_op ioc with
      | none =>
        simp [io_start_recv, io_start_send, io_start_accept, halloc]
      | some i =>
        simp [io_start_recv, io_start_send, io_start_accept, halloc,
          start_oper_full e ioc _ hfull]

/-- Witness for C2 on a concretely full submission ring. -/
theorem submit_refusal_no_mutation_witness :
    io_start_recv 0 iocFull 9 100 64 42 = (false, iocFull) ∧
    io_start_send 0 iocFull 9 200 16 42 = (false, iocFull) ∧
    io_start_accept 0 iocFull 9 42 = (false, iocFull) :=
  submit_refusal_no_mutation 0 iocFull 9 100 64 200 16 42 (Or.inr (by decide))

/-- C6 counterexample: at `head = tail = 2^32 - 1` (an empty ring,
0 unconsumed entries, capacity 4) the wrapping full check
`tail ≥ (head + limit) % 2^32` compares `2^32 - 1 ≥ 3` and refuses, so
refusal is NOT exactly "the ring already holds capacity unconsumed
entries" over all 32-bit free-running index values. -/
theorem start_oper_full_check_not_exact :
    start_oper 0 iocWrap sqeZero = (false, iocWrap) ∧
    subCount iocWrap.submissions = 0 ∧
    iocWrap.submissions.limit = 4 ∧
    subCount iocWrap.submissions ≠ iocWrap.submissions.limit := by
  refine ⟨?_, by decide, by decide, by decide⟩
  apply start_oper_full
  decide

/-- C6 amended: for all 32-bit free-running `head`/`tail` the invariant
`(tail - head) mod 2^32 ≤ capacity` is preserved by every `start_oper`
outcome and by `io_wait`; `start_oper` advances the tail only when the
full check fails, and refuses (context unchanged) whenever the ring
already holds capacity unconsumed entries — but the refusal is not
exact: when `head + capacity` wraps past 2^32 it can also refuse with
fewer unconsumed entries. -/
theorem start_oper_invariant_amended (e e2 : Int) (ioc : IoContext)
    (sqe : IoUringSqe)
    (hh : ioc.submissions.head < U32) (ht : ioc.submissions.tail < U32)
    (hL0 : 0 < ioc.submissions.limit)
    (hLU : ioc.submissions.limit < U32)
    (hinv : subCount ioc.submissions ≤ ioc.submissions.limit) :
    (subCount ioc.submissions = ioc.submissions.limit →
      start_oper e ioc sqe = (false, ioc)) ∧
    subCount (start_oper e ioc sqe).2.submissions ≤
      ioc.submissions.limit ∧
    ((start_oper e ioc sqe).2.submissions.tail ≠ ioc.submissions.tail →
      ioc.submissions.tail <
        (ioc.submissions.head + ioc.submissions.limit) % U32) ∧
    (io_wait e2 ioc).2.submissions = ioc.submissions := by
  by_cases hf : ioc.submissions.tail ≥
      (ioc.submissions.head + ioc.submissions.limit) % U32
  · have hso := start_oper_full e ioc sqe hf
    refine ⟨fun _ => hso, ?_, ?_, io_wait_submissions e2 ioc⟩
    · rw [hso]
      exact hinv
    · rw [hso]
      intro hne
      exact absurd rfl hne
  · have hst := start_oper_state e ioc sqe hf
    have hlt : ioc.submissions.tail <
        (ioc.submissions.head + ioc.submissions.limit) % U32 :=
      Nat.lt_of_not_le hf
    refine ⟨?_, ?_, fun _ => hlt, io_wait_submissions e2 ioc⟩
    · intro hc
      exfalso
      simp only [subCount, U32] at hc hlt
      omega
    · rw [hst]
      simp only [subCount, subAdvanced, U32] at hinv hlt ⊢
      omega

/-- Witness for the amended C6 theorem on a concrete empty ring. -/
theorem start_oper_invariant_amended_witness :
    (subCount iocBase.submissions = iocBase.submissions.limit →
      start_oper 0 iocBase sqeZero = (false, iocBase)) ∧
    subCount (start_oper 0 iocBase sqeZero).2.submissions ≤
      iocBase.submissions.limit ∧
    ((start_oper 0 iocBase sqeZero).2.submissions.tail ≠
        iocBase.submissions.tail →
      iocBase.submissions.tail <
        (iocBase.submissions.head + iocBase.submissions.limit) % U32) ∧
    (io_wait 0 iocBase).2.submissions = iocBase.submissions :=
  start_oper_invariant_amended 0 0 iocBase sqeZero (by decide) (by decide)
    (by decide) (by decide) (by decide)

/-- C1: every consuming `io_wait` call advances the completion head by
exactly one (release-stored last), after the event has received the
resolved slot's kind and context and the kernel result's sign, and with
the resolved table slot reset to idle — on success and on per-operation
failure alike (the post state holds for every value of the record's
result). -/
theorem io_wait_consumes_exactly_one (e : Int) (ioc : IoContext)
    (hcons : ¬ (ioc.completions.head = ioc.completions.tail ∧ e < 0)) :
    (io_wait e ioc).2.completions.head =
      (ioc.completions.head + 1) % U32 ∧
    (io_wait e ioc).2.ops =
      ioc.ops.set (waitCqe ioc).user_data
        { waitOp ioc with type := OpType.IO_VOID } ∧
    (io_wait e ioc).1.user = some (waitOp ioc).user ∧
    (io_wait e ioc).1.type = some (waitOp ioc).type ∧
    (io_wait e ioc).1.error = decide ((waitCqe ioc).res < 0) := by
  simp only [io_wait, if_neg hcons]
  refine ⟨trivial, trivial, ?_, ?_, ?_⟩ <;>
    (split <;> first | rfl | (split <;> rfl))

/-- Witness for C1 on a concrete pending completion. -/
theorem io_wait_consumes_exactly_one_witness :
    (io_wait 0 iocPend).2.completions.head =
      (iocPend.completions.head + 1) % U32 ∧
    (io_wait 0 iocPend).2.ops =
      iocPend.ops.set (waitCqe iocPend).user_data
        { waitOp iocPend with type := OpType.IO_VOID } ∧
    (io_wait 0 iocPend).1.user = some (waitOp iocPend).user ∧
    (io_wait 0 iocPend).1.type = some (waitOp iocPend).type ∧
    (io_wait 0 iocPend).1.error = decide ((waitCqe iocPend).res < 0) :=
  io_wait_consumes_exactly_one 0 iocPend (by decide)

/-- C5: on the consume path the event's error flag is set exactly when
the record's signed result is negative; a non-negative result is stored
as the byte count for receive/send and as the new channel handle for
accept; an accept completing with a negative result yields
`error = true` with the handle field never written, and its slot is
still reset to idle. -/
theorem io_wait_event_fields (e : Int) (ioc : IoContext)
    (hcons : ¬ (ioc.completions.head = ioc.completions.tail ∧ e < 0))
    (hi : (waitCqe ioc).user_data < ioc.ops.length) :
    ((io_wait e ioc).1.error = true ↔ (waitCqe ioc).res < 0) ∧
    (0 ≤ (waitCqe ioc).res →
      ((waitOp ioc).type = OpType.IO_RECV ∨
        (waitOp ioc).type = OpType.IO_SEND) →
      (io_wait e ioc).1.num = some (waitCqe ioc).res) ∧
    (0 ≤ (waitCqe ioc).res → (waitOp ioc).type = OpType.IO_ACCEPT →
      (io_wait e ioc).1.handle = some (waitCqe ioc).res) ∧
    ((waitCqe ioc).res < 0 → (waitOp ioc).type = OpType.IO_ACCEPT →
      (io_wait e ioc).1.error = true ∧
      (io_wait e ioc).1.handle = none ∧
      ((io_wait e ioc).2.ops.getD (waitCqe ioc).user_data opVoid).type =
        OpType.IO_VOID) := by
  simp only [io_wait, if_neg hcons]
  refine ⟨?_, ?_, ?_, ?_⟩
  · split
    · simp_all
    · split <;> simp_all
  · intro h0 hor
    rcases hor with h | h <;> simp [not_lt.mpr h0, h]
  · intro h0 h
    simp [not_lt.mpr h0, h]
  · intro hneg h
    refine ⟨by simp [hneg], by simp [hneg], ?_⟩
    simp [List.getD, List.getElem?_set_self, hi]

/-- Witness for C5: the pending accept completion with kernel result
-13. -/
theorem io_wait_event_fields_witness :
    ((io_wait 0 iocPend).1.error = true ↔ (waitCqe iocPend).res < 0) ∧
    (0 ≤ (waitCqe iocPend).res →
      ((waitOp iocPend).type = OpType.IO_RECV ∨
        (waitOp iocPend).type = OpType.IO_SEND) →
      (io_wait 0 iocPend).1.num = some (waitCqe iocPend).res) ∧
    (0 ≤ (waitCqe iocPend).res →
      (waitOp iocPend).type = OpType.IO_ACCEPT →
      (io_wait 0 iocPend).1.handle = some (waitCqe iocPend).res) ∧
    ((waitCqe iocPend).res < 0 →
      (waitOp iocPend).type = OpType.IO_ACCEPT →
      (io_wait 0 iocPend).1.error = true ∧
      (io_wait 0 iocPend).1.handle = none ∧
      ((io_wait 0 iocPend).2.ops.getD (waitCqe iocPend).user_data
          opVoid).type = OpType.IO_VOID) :=
  io_wait_event_fields 0 iocPend (by decide) (by decide)

/-- C3: for each typed submit, the slot found by `alloc_op` is idle at
allocation time, and its kind becomes non-idle exactly when the ring
write succeeds: on any failure the operation table is the unchanged pre
table — so the allocated slot is idle again, not leaked — and on success
the slot carries the caller context and the operation's kind. -/
theorem submit_commit_after_ring_write (e : Int) (ioc : IoContext)
    (handle : Int) (dst mx src num user i : Nat)
    (halloc : alloc_op ioc = some i) :
    (ioc.ops.getD i opVoid).type = OpType.IO_VOID ∧
    (io_start_recv e ioc handle dst mx user).2.ops =
      (if (io_start_recv e ioc handle dst mx user).1 = true then
        ioc.ops.set i
          { ioc.ops.getD i opVoid with
              user := user, type := OpType.IO_RECV }
      else ioc.ops) ∧
    (io_start_send e ioc handle src num user).2.ops =
      (if (io_start_send e ioc handle src num user).1 = true then
        ioc.ops.set i
          { ioc.ops.getD i opVoid with
              user := user, type := OpType.IO_SEND }
      else ioc.ops) ∧
    (io_start_accept e ioc handle user).2.ops =
      (if (io_start_accept e ioc handle user).1 = true then
        ioc.ops.set i
          { ioc.ops.getD i opVoid with
              user := user, type := OpType.IO_ACCEPT }
      else ioc.ops) := by
  refine ⟨alloc_op_idle ioc i halloc, ?_, ?_, ?_⟩
  · rcases hso : start_oper e ioc (recvSqe handle dst mx i) with ⟨b, iocm⟩
    have hops2 : iocm.ops = ioc.ops := by
      have h2 := start_oper_ops e ioc (recvSqe handle dst mx i)
      rw [hso] at h2
      exact h2
    cases b <;> simp [io_start_recv, halloc, hso, hops2]
  · rcases hso : start_oper e ioc (sendSqe handle src num i) with ⟨b, iocm⟩
    have hops2 : iocm.ops = ioc.ops := by
      have h2 := start_oper_ops e ioc (sendSqe handle src num i)
      rw [hso] at h2
      exact h2
    cases b <;> simp [io_start_send, halloc, hso, hops2]
  · rcases hso : start_oper e ioc (acceptSqe handle i) with ⟨b, iocm⟩
    have hops2 : iocm.ops = ioc.ops := by
      have h2 := start_oper_ops e ioc (acceptSqe handle i)
      rw [hso] at h2
      exact h2
    cases b <;> simp [io_start_accept, halloc, hso, hops2]

/-- Witness for C3: allocation on the base context resolves slot 0. -/
theorem submit_commit_after_ring_write_witness :
    (iocBase.ops.getD 0 opVoid).type = OpType.IO_VOID ∧
    (io_start_recv 0 iocBase 9 100 64 42).2.ops =
      (if (io_start_recv 0 iocBase 9 100 64 42).1 = true then
        iocBase.ops.set 0
          { iocBase.ops.getD 0 opVoid with
              user := 42, type := OpType.IO_RECV }
      else iocBase.ops) ∧
    (io_start_send 0 iocBase 9 200 16 42).2.ops =
      (if (io_start_send 0 iocBase 9 200 16 42).1 = true then
        iocBase.ops.set 0
          { iocBase.ops.getD 0 opVoid with
              user := 42, type := OpType.IO_SEND }
      else iocBase.ops) ∧
    (io_start_accept 0 iocBase 9 42).2.ops =
      (if (io_start_accept 0 iocBase 9 42).1 = true then
        iocBase.ops.set 0
          { iocBase.ops.getD 0 opVoid with
              user := 42, type := OpType.IO_ACCEPT }
      else iocBase.ops) :=
  submit_commit_after_ring_write 0 iocBase 9 100 64 200 16 42 0 (by decide)

/-- C10: when the full check passes but the notify call fails, the typed
submit returns `false` with the submission ring already mutated: the
tail is advanced and the descriptor and index-array entry stay published
(`subAdvanced`), so a `false` return does not imply the ring is
unchanged. -/
theorem submit_enter_failure_publishes (e : Int) (ioc : IoContext)
    (handle : Int) (dst mx user i : Nat)
    (halloc : alloc_op ioc = some i)
    (hnf : ¬ ioc.submissions.tail ≥
      (ioc.submissions.head + ioc.submissions.limit) % U32)
    (he : e < 0) :
    (io_start_recv e ioc handle dst mx user).1 = false ∧
    (io_start_recv e ioc handle dst mx user).2.submissions =
      subAdvanced ioc.submissions (recvSqe handle dst mx i) ∧
    (io_start_recv e ioc handle dst mx user).2.submissions.tail =
      (ioc.submissions.tail + 1) % U32 := by
  have hso := start_oper_enter_fail e ioc (recvSqe handle dst mx i) hnf he
  simp [io_start_recv, halloc, hso, subAdvanced]

/-- Witness for C10: a receive submitted into an empty ring whose notify
call fails. -/
theorem submit_enter_failure_publishes_witness :
    (io_start_recv (-1) iocBase 9 100 64 42).1 = false ∧
    (io_start_recv (-1) iocBase 9 100 64 42).2.submissions =
      subAdvanced iocBase.submissions (recvSqe 9 100 64 0) ∧
    (io_start_recv (-1) iocBase 9 100 64 42).2.submissions.tail =
      (iocBase.submissions.tail + 1) % U32 :=
  submit_enter_failure_publishes (-1) iocBase 9 100 64 42 0 (by decide)
    (by decide) (by decide)

/-- C7: every successful typed submit — receive, send and accept —
stores the allocated slot's identity bit-for-bit as the `user_data`
correlation tag of the descriptor it published into the submission ring;
and whenever the kernel echoes that tag into a completion record
(`(waitCqe ioc2).user_data = i`), `io_wait` resolves it back to exactly
that slot — the table after `io_wait` differs from the pre table only at
the allocated slot, which is reset to idle, never at a different slot. -/
theorem correlation_tag_roundtrip (e e2 : Int) (ioc ioc2 : IoContext)
    (handle : Int) (dst mx src num user i : Nat)
    (halloc : alloc_op ioc = some i)
    (hidx : subIndex ioc.submissions < ioc.submissions.entries.length)
    (hsr : (io_start_recv e ioc handle dst mx user).1 = true)
    (hss : (io_start_send e ioc handle src num user).1 = true)
    (hsa : (io_start_accept e ioc handle user).1 = true)
    (hcons : ¬ (ioc2.completions.head = ioc2.completions.tail ∧ e2 < 0)) :
    ((io_start_recv e ioc handle dst mx user).2.submissions.entries.getD
        (subIndex ioc.submissions) sqeZero).user_data = i ∧
    ((io_start_send e ioc handle src num user).2.submissions.entries.getD
        (subIndex ioc.submissions) sqeZero).user_data = i ∧
    ((io_start_accept e ioc handle user).2.submissions.entries.getD
        (subIndex ioc.submissions) sqeZero).user_data = i ∧
    ((waitCqe ioc2).user_data = i →
      (io_wait e2 ioc2).2.ops =
        ioc2.ops.set i
          { ioc2.ops.getD i opVoid with type := OpType.IO_VOID }) := by
  have hrecv : ((io_start_recv e ioc handle dst mx
      user).2.submissions.entries.getD
        (subIndex ioc.submissions) sqeZero).user_data = i := by
    rcases hso : start_oper e ioc (recvSqe handle dst mx i) with ⟨b, iocm⟩
    cases b with
    | false => simp [io_start_recv, halloc, hso] at hsr
    | true =>
      have hchar := start_oper_true e ioc iocm (recvSqe handle dst mx i) hso
      simp only [recvSqe] at hso hchar
      simp [io_start_recv, halloc, hso, hchar, subAdvanced, List.getD,
        List.getElem?_set_self, hidx, recvSqe]
  have hsend : ((io_start_send e ioc handle src num
      user).2.submissions.entries.getD
        (subIndex ioc.submissions) sqeZero).user_data = i := by
    rcases hso : start_oper e ioc (sendSqe handle src num i) with ⟨b, iocm⟩
    cases b with
    | false => simp [io_start_send, halloc, hso] at hss
    | true =>
      have hchar := start_oper_true e ioc iocm (sendSqe handle src num i) hso
      simp only [sendSqe] at hso hchar
      simp [io_start_send, halloc, hso, hchar, subAdvanced, List.getD,
        List.getElem?_set_self, hidx, sendSqe]
  have hacc : ((io_start_accept e ioc handle
      user).2.submissions.entries.getD
        (subIndex ioc.submissions) sqeZero).user_data = i := by
    rcases hso : start_oper e ioc (acceptSqe handle i) with ⟨b, iocm⟩
    cases b with
    | false => simp [io_start_accept, halloc, hso] at hsa
    | true =>
      have hchar := start_oper_true e ioc iocm (acceptSqe handle i) hso
      simp only [acceptSqe] at hso hchar
      simp [io_start_accept, halloc, hso, hchar, subAdvanced, List.getD,
        List.getElem?_set_self, hidx, acceptSqe]
  refine ⟨hrecv, hsend, hacc, ?_⟩
  intro hud
  simp only [io_wait, if_neg hcons, waitOp]
  rw [hud]

/-- Witness for C7: submit each of a receive, a send and an accept into
slot 0 of the base context, then consume the echoed completion pending
in `iocEcho`. -/
theorem correlation_tag_roundtrip_witness :
    ((io_start_recv 0 iocBase 9 100 64 42).2.submissions.entries.getD
        (subIndex iocBase.submissions) sqeZero).user_data = 0 ∧
    ((io_start_send 0 iocBase 9 200 16 42).2.submissions.entries.getD
        (subIndex iocBase.submissions) sqeZero).user_data = 0 ∧
    ((io_start_accept 0 iocBase 9 42).2.submissions.entries.getD
        (subIndex iocBase.submissions) sqeZero).user_data = 0 ∧
    ((waitCqe iocEcho).user_data = 0 →
      (io_wait 0 iocEcho).2.ops =
        iocEcho.ops.set 0
          { iocEcho.ops.getD 0 opVoid with type := OpType.IO_VOID }) :=
  correlation_tag_roundtrip 0 0 iocBase iocEcho 9 100 64 200 16 42 0
    (by decide) (by decide) (by decide) (by decide) (by decide) (by decide)

/-- C8 (code bug in `io_context_init`): after `io_uring_setup` grants
the ring fd, a failing SQ-ring `mmap` makes the function return `false`
with the fd still acquired and nothing released — the `// TODO: Cleanup`
paths (io_linux.c:71,81,98) do not release partial acquisitions, against
the claim that everything acquired so far is released before returning
`false`. -/
theorem io_context_init_leaks_on_mmap_failure :
    io_context_init oracleLeak =
      { success := false, acquired := [Resource.ringFd], released := [],
        cqSharesSq := false } ∧
    (io_context_init oracleLeak).released = [] := by
  decide

/-- C9: when every kernel call succeeds, setup computes each ring
region's size as the kernel-reported control-block offset plus the
granted entry count times the element size (4 for the index array, 16
per cqe — not the hint 32 passed to `io_uring_setup`); with
`IORING_FEAT_SINGLE_MMAP` it creates one shared ring mapping sized to
the larger of the two (the CQ view aliasing it), otherwise two separate
ring mappings. -/
theorem io_context_init_mapping_geometry (o : InitOracle)
    (hfd : ¬ o.setup_fd < 0) (hsq : o.sq_mmap_ok = true)
    (hcq : o.cq_mmap_ok = true) (hsqes : o.sqes_mmap_ok = true) :
    (o.p.features &&& IORING_FEAT_SINGLE_MMAP ≠ 0 →
      io_context_init o =
        { success := true,
          acquired := [Resource.ringFd,
            Resource.mapping IORING_OFF_SQ_RING
              (Nat.max (o.p.sq_off_array + o.p.sq_entries * 4)
                (o.p.cq_off_cqes + o.p.cq_entries * 16)),
            Resource.mapping IORING_OFF_SQES (o.p.sq_entries * 64)],
          released := [], cqSharesSq := true }) ∧
    (o.p.features &&& IORING_FEAT_SINGLE_MMAP = 0 →
      io_context_init o =
        { success := true,
          acquired := [Resource.ringFd,
            Resource.mapping IORING_OFF_SQ_RING
              (o.p.sq_off_array + o.p.sq_entries * 4),
            Resource.mapping IORING_OFF_CQ_RING
              (o.p.cq_off_cqes + o.p.cq_entries * 16),
            Resource.mapping IORING_OFF_SQES (o.p.sq_entries * 64)],
          released := [], cqSharesSq := false }) := by
  constructor <;> intro hft <;>
    simp [io_context_init, hfd, hsq, hcq, hsqes, hft]

/-- Witness for C9 on an oracle granting 64/128 entries (hint was 32)
with the single-mmap feature reported. -/
theorem io_context_init_mapping_geometry_witness :
    (oracleOk.p.features &&& IORING_FEAT_SINGLE_MMAP ≠ 0 →
      io_context_init oracleOk =
        { success := true,
          acquired := [Resource.ringFd,
            Resource.mapping IORING_OFF_SQ_RING
              (Nat.max (oracleOk.p.sq_off_array + oracleOk.p.sq_entries * 4)
                (oracleOk.p.cq_off_cqes + oracleOk.p.cq_entries * 16)),
            Resource.mapping IORING_OFF_SQES (oracleOk.p.sq_entries * 64)],
          released := [], cqSharesSq := true }) ∧
    (oracleOk.p.features &&& IORING_FEAT_SINGLE_MMAP = 0 →
      io_context_init oracleOk =
        { success := true,
          acquired := [Resource.ringFd,
            Resource.mapping IORING_OFF_SQ_RING
              (oracleOk.p.sq_off_array + oracleOk.p.sq_entries * 4),
            Resource.mapping IORING_OFF_CQ_RING
              (oracleOk.p.cq_off_cqes + oracleOk.p.cq_entries * 16),
            Resource.mapping IORING_OFF_SQES (oracleOk.p.sq_entries * 64)],
          released := [], cqSharesSq := false }) :=
  io_context_init_mapping_geometry oracleOk (by decide) rfl rfl rfl
